import Mathlib

/-
Verification of the FedFundsPlot repository (src/fedfunds_plot.py).

The file shallowly embeds the data-handling core of `get_usempl_data` and
`usempl_npp`: calendar dates, the dated numeric series (pandas DataFrame with
columns Date / PAYEMS, missing values as NaN modelled by `Option`), the
peak-search over each recession window, the months-from-peak re-indexing, the
repeated left merges building the wide table, the cache write/read path, and
the end-date resolution of the entry point.  Numeric values are modelled as
rationals; pandas NaN is `Option.none`.
-/

/-- A calendar date, as carried by the pandas `Date` column
(`datetime64` values; year, month, day). -/
structure Date where
  year : Int
  month : Int
  day : Int
deriving DecidableEq, Repr

/-- Chronological (lexicographic) order on dates, the order pandas uses for
`Date` comparisons such as `usempl_df['Date'] >= maxdate_rng[0]`. -/
def Date.le (a b : Date) : Prop :=
  a.year < b.year ∨
    (a.year = b.year ∧
      (a.month < b.month ∨ (a.month = b.month ∧ a.day ≤ b.day)))

/-- Strict chronological order on dates. -/
def Date.lt (a b : Date) : Prop :=
  a.year < b.year ∨
    (a.year = b.year ∧
      (a.month < b.month ∨ (a.month = b.month ∧ a.day < b.day)))

instance (a b : Date) : Decidable (Date.le a b) := by
  unfold Date.le; infer_instance

instance (a b : Date) : Decidable (Date.lt a b) := by
  unfold Date.lt; infer_instance

theorem Date.le_refl (a : Date) : Date.le a a := by
  unfold Date.le; omega

theorem Date.le_trans {a b c : Date} (h1 : Date.le a b) (h2 : Date.le b c) :
    Date.le a c := by
  unfold Date.le at *; omega

theorem Date.le_total (a b : Date) : Date.le a b ∨ Date.le b a := by
  unfold Date.le; omega

theorem Date.not_lt_iff_le {a b : Date} : ¬ Date.lt a b ↔ Date.le b a := by
  unfold Date.lt Date.le; omega

/-- The larger of two dates, used to model pandas `.max()` on a date column. -/
def dateMax (a b : Date) : Date := if Date.le a b then b else a

theorem dateMax_eq_or (a b : Date) : dateMax a b = a ∨ dateMax a b = b := by
  unfold dateMax; split <;> simp

theorem le_dateMax_left (a b : Date) : Date.le a (dateMax a b) := by
  unfold dateMax; split
  case isTrue h => exact h
  case isFalse h => exact Date.le_refl a

theorem le_dateMax_right (a b : Date) : Date.le b (dateMax a b) := by
  unfold dateMax; split
  case isTrue h => exact Date.le_refl b
  case isFalse h => cases Date.le_total a b with
    | inl h1 => exact absurd h1 h
    | inr h1 => exact h1

/-- Maximum of a list of dates, `none` on the empty list: pandas
`Series.max()` on a datetime column returns `NaT` when the selection is
empty. -/
def dmax? : List Date → Option Date
  | [] => none
  | x :: xs =>
    match dmax? xs with
    | none => some x
    | some m => some (dateMax x m)

theorem dmax?_eq_none_iff (l : List Date) : dmax? l = none ↔ l = [] := by
  cases l with
  | nil => simp [dmax?]
  | cons x xs =>
    simp only [dmax?]
    cases dmax? xs <;> simp

theorem dmax?_mem {l : List Date} {m : Date} (h : dmax? l = some m) : m ∈ l := by
  induction l generalizing m with
  | nil => simp [dmax?] at h
  | cons x xs ih =>
    simp only [dmax?] at h
    cases hx : dmax? xs with
    | none => rw [hx] at h; simp at h; simp [h]
    | some m' =>
      rw [hx] at h
      simp at h
      cases dateMax_eq_or x m' with
      | inl h1 => rw [← h, h1]; exact List.mem_cons_self x xs
      | inr h1 => rw [← h, h1]; exact List.mem_cons_of_mem x (ih hx)

theorem dmax?_isUB {l : List Date} {m : Date} (h : dmax? l = some m) :
    ∀ d ∈ l, Date.le d m := by
  induction l generalizing m with
  | nil => simp
  | cons x xs ih =>
    simp only [dmax?] at h
    cases hx : dmax? xs with
    | none =>
      rw [hx] at h
      simp at h
      rw [dmax?_eq_none_iff] at hx
      subst hx
      intro d hd
      simp at hd
      subst hd; rw [← h]; exact Date.le_refl d
    | some m' =>
      rw [hx] at h
      simp at h
      intro d hd
      rcases List.mem_cons.mp hd with h1 | h1
      · subst h1; rw [← h]; exact le_dateMax_left d m'
      · exact Date.le_trans (ih hx d h1) (h ▸ le_dateMax_right x m')

/-- Maximum of a list of rationals, `none` on the empty list: pandas
`Series.max()` skips NaN and returns NaN when no non-missing value exists. -/
def qmax? : List ℚ → Option ℚ
  | [] => none
  | x :: xs =>
    match qmax? xs with
    | none => some x
    | some m => some (max x m)

theorem qmax?_eq_none_iff (l : List ℚ) : qmax? l = none ↔ l = [] := by
  cases l with
  | nil => simp [qmax?]
  | cons x xs =>
    simp only [qmax?]
    cases qmax? xs <;> simp

theorem qmax?_mem {l : List ℚ} {m : ℚ} (h : qmax? l = some m) : m ∈ l := by
  induction l generalizing m with
  | nil => simp [qmax?] at h
  | cons x xs ih =>
    simp only [qmax?] at h
    cases hx : qmax? xs with
    | none => rw [hx] at h; simp at h; simp [h]
    | some m' =>
      rw [hx] at h
      simp at h
      rcases max_choice x m' with h1 | h1
      · rw [← h, h1]; exact List.mem_cons_self x xs
      · rw [← h, h1]; exact List.mem_cons_of_mem x (ih hx)

theorem qmax?_isUB {l : List ℚ} {m : ℚ} (h : qmax? l = some m) :
    ∀ v ∈ l, v ≤ m := by
  induction l generalizing m with
  | nil => simp
  | cons x xs ih =>
    simp only [qmax?] at h
    cases hx : qmax? xs with
    | none =>
      rw [hx] at h
      simp at h
      rw [qmax?_eq_none_iff] at hx
      subst hx
      intro v hv
      simp at hv
      subst hv; rw [← h]
    | some m' =>
      rw [hx] at h
      simp at h
      intro v hv
      rcases List.mem_cons.mp hv with h1 | h1
      · subst h1; rw [← h]; exact le_max_left v m'
      · exact le_trans (ih hx v h1) (h ▸ le_max_right x m')

/-- A point of the loaded series: one row of `usempl_df`, with its `Date`
and its `PAYEMS` value (`none` models a pandas NaN cell). -/
abbrev TimePoint : Type := Date × Option ℚ

/-- The loaded series is calendar-monthly: every date has a valid month
number and no two rows fall in the same calendar month.  This holds for the
PAYEMS series `get_usempl_data` loads (one observation per month). -/
def monthlySeries (s : List TimePoint) : Prop :=
  (∀ p ∈ s, 1 ≤ p.1.month ∧ p.1.month ≤ 12) ∧
    s.Pairwise (fun p q => p.1.year ≠ q.1.year ∨ p.1.month ≠ q.1.month)

instance (s : List TimePoint) : Decidable (monthlySeries s) := by
  unfold monthlySeries; infer_instance

/-- The rows of `usempl_df` whose date lies in the window
`[d0, d1]` (both bounds inclusive), as selected at lines 214-215 and
223-224 of src/fedfunds_plot.py by
`(usempl_df['Date'] >= maxdate_rng[0]) & (usempl_df['Date'] <= maxdate_rng[1])`. -/
def windowPts (s : List TimePoint) (d0 d1 : Date) : List TimePoint :=
  s.filter (fun p => decide (Date.le d0 p.1) && decide (Date.le p.1 d1))

/-- The non-missing `PAYEMS` values inside the window: pandas `.max()`
skips NaN entries. -/
def windowVals (s : List TimePoint) (d0 d1 : Date) : List ℚ :=
  (windowPts s d0 d1).filterMap (fun p => p.2)

/-- Lines 213-215: `peak_val = usempl_df['PAYEMS'][...in window...].max()`.
`none` models the NaN that pandas returns when the selection holds no
non-missing value. -/
def peak_val (s : List TimePoint) (d0 d1 : Date) : Option ℚ :=
  qmax? (windowVals s d0 d1)

/-- The dates of rows inside the window whose `PAYEMS` equals `pv` exactly
(the float comparison `usempl_df['PAYEMS'] == peak_val` at line 225). -/
def peakDateCands (s : List TimePoint) (d0 d1 : Date) (pv : ℚ) : List Date :=
  (s.filter (fun p =>
    decide (Date.le d0 p.1) && decide (Date.le p.1 d1) &&
      decide (p.2 = some pv))).map (fun p => p.1)

/-- Lines 222-225: `peak_date = usempl_df['Date'][...window... &
(usempl_df['PAYEMS'] == peak_val)].max()`; `none` models NaT. -/
def peak_date (s : List TimePoint) (d0 d1 : Date) (pv : ℚ) : Option Date :=
  dmax? (peakDateCands s d0 d1 pv)

/-- Line 227-230: one row of the per-window long table `usempl_pk_long`:
`mths_frm_pk{i} = (Date.year - peak_date.year)*12 + (Date.month - peak_date.month)`. -/
def mths_frm_peak (d pk : Date) : Int :=
  (d.year - pk.year) * 12 + (d.month - pk.month)

/-- One row of `usempl_pk_long` restricted to the four columns merged at
lines 240-241: the months-from-peak key, the date, the raw `PAYEMS` value
and the normalized value `usempl_dv_pk{i} = PAYEMS / peak_val`
(line 218-219; NaN / x is NaN). -/
structure LongRow where
  offset : Int
  date : Date
  payems : Option ℚ
  dvPk : Option ℚ
deriving DecidableEq, Repr

/-- Lines 217-219 and 227-230 applied to one point of the full series. -/
def longRow (pv : ℚ) (pd : Date) (p : TimePoint) : LongRow :=
  ⟨mths_frm_peak p.1 pd, p.1, p.2, p.2.map (fun v => v / pv)⟩

/-- The columns of `usempl_pk_long` for window `i`: computed for every row
of the full loaded series, not only rows inside the search window. -/
def longTable (s : List TimePoint) (pv : ℚ) (pd : Date) : List LongRow :=
  s.map (longRow pv pd)

/-- One per-window column group of the wide table `usempl_pk`:
`Date{i}`, `PAYEMS{i}`, `usempl_dv_pk{i}` (all NaN when the axis value had
no match in this window's long table). -/
structure WGroup where
  date : Option Date
  payems : Option ℚ
  dvPk : Option ℚ
deriving DecidableEq, Repr

/-- One row of the wide table `usempl_pk`: the shared `mths_frm_peak` axis
value plus one column group per recession window processed so far. -/
structure WideRow where
  mthsFrmPeak : Int
  groups : List WGroup
deriving DecidableEq, Repr

/-- The column group produced by a merge match (or by no match). -/
def groupOf : Option LongRow → WGroup
  | none => ⟨none, none, none⟩
  | some lr => ⟨some lr.date, lr.payems, lr.dvPk⟩

/-- Lines 238-246: `usempl_pk = pd.merge(usempl_pk, usempl_pk_long[[...]],
left_on='mths_frm_peak', right_on=mths_frm_pk_name, how='left')` followed by
dropping the right key and renaming.  A left merge keeps every left row in
order; a left row is repeated once per matching right row, and gets NaN
columns when no right row matches. -/
def mergeWindow (t : List WideRow) (long : List LongRow) : List WideRow :=
  t.flatMap (fun r =>
    match long.filter (fun lr => decide (lr.offset = r.mthsFrmPeak)) with
    | [] => [⟨r.mthsFrmPeak, r.groups ++ [groupOf none]⟩]
    | ms => ms.map (fun lr => ⟨r.mthsFrmPeak, r.groups ++ [groupOf (some lr)]⟩))

/-- The consecutive integers from `a` upward, `n` of them. -/
def intRangeAux : Nat → Int → List Int
  | 0, _ => []
  | n + 1, a => a :: intRangeAux n (a + 1)

/-- `np.arange(a, b + 1)` for integers: the integers from `a` to `b`
inclusive (empty when `b < a`). -/
def intRange (a b : Int) : List Int :=
  intRangeAux (b + 1 - a).toNat a

/-- Lines 204-206: the initial wide table
`usempl_pk = pd.DataFrame(np.arange(-bkwd_mths_max, frwd_mths_max + 1),
columns=['mths_frm_peak'])`, with no window columns yet. -/
def usempl_pk_init (bkwd frwd : Nat) : List WideRow :=
  (intRange (-(bkwd : Int)) (frwd : Int)).map (fun k => ⟨k, []⟩)

/-- Errors aborting the alignment loop.  `natStrftime` models the
`ValueError` Python raises at line 226 when `peak_date` is NaT and
`peak_date.strftime('%Y-%m-%d')` is evaluated (which happens exactly when a
window holds no non-missing value, so that `peak_val` is NaN and the
selection at lines 222-225 is empty).  `noPeakFound` is modelled from the
spec: the spec's `NoPeakFoundError`, carrying the window label; no such
error type exists anywhere in src/fedfunds_plot.py. -/
inductive AlignError where
  | natStrftime : AlignError
  | noPeakFound : String → AlignError
deriving DecidableEq, Repr

/-- The body of the loop at lines 210-246 for a single recession window
`rng = (maxdate_rng[0], maxdate_rng[1])`: compute `peak_val`, compute
`peak_date` and format it (raising when it is NaT), and build this window's
long-table columns over the full series. -/
def processWindow (s : List TimePoint) (rng : Date × Date) :
    Except AlignError (ℚ × Date × List LongRow) :=
  match peak_val s rng.1 rng.2 with
  | none => .error .natStrftime
  | some pv =>
    match peak_date s rng.1 rng.2 pv with
    | none => .error .natStrftime
    | some pd => .ok (pv, pd, longTable s pv pd)

/-- The loop at lines 210-246: process the windows in order, merging each
window's long table onto the shared axis and collecting `peak_vals` and
`peak_dates` in input order; the first failing window aborts the whole
alignment. -/
def alignWindows (s : List TimePoint) (t : List WideRow) :
    List (Date × Date) → Except AlignError (List WideRow × List ℚ × List Date)
  | [] => .ok (t, [], [])
  | rng :: rest =>
    match processWindow s rng with
    | .error e => .error e
    | .ok (pv, pd, long) =>
      match alignWindows s (mergeWindow t long) rest with
      | .error e => .error e
      | .ok (t2, pvs, pds) => .ok (t2, pv :: pvs, pd :: pds)

/-- Lines 187-201: `maxdate_rng_lst`, the fifteen hardcoded peak-search
windows, one per recession, in input order. -/
def maxdate_rng_lst : List (Date × Date) :=
  [(⟨1929, 7, 1⟩, ⟨1929, 10, 1⟩),
   (⟨1937, 7, 1⟩, ⟨1937, 7, 1⟩),
   (⟨1945, 1, 1⟩, ⟨1945, 3, 1⟩),
   (⟨1948, 9, 1⟩, ⟨1949, 1, 1⟩),
   (⟨1953, 6, 1⟩, ⟨1953, 8, 1⟩),
   (⟨1957, 7, 1⟩, ⟨1957, 9, 1⟩),
   (⟨1960, 3, 1⟩, ⟨1960, 5, 1⟩),
   (⟨1969, 11, 1⟩, ⟨1970, 3, 1⟩),
   (⟨1973, 10, 1⟩, ⟨1974, 7, 1⟩),
   (⟨1979, 12, 1⟩, ⟨1980, 3, 1⟩),
   (⟨1981, 6, 1⟩, ⟨1981, 8, 1⟩),
   (⟨1990, 6, 1⟩, ⟨1991, 8, 1⟩),
   (⟨2001, 2, 1⟩, ⟨2001, 4, 1⟩),
   (⟨2007, 11, 1⟩, ⟨2008, 1, 1⟩),
   (⟨2020, 1, 1⟩, ⟨2020, 3, 1⟩)]

/-- The peak-alignment core of `get_usempl_data` (lines 203-251): given the
loaded series and the window sizes, build the wide table `usempl_pk` and
the `peak_vals` / `peak_dates` lists over the fifteen hardcoded recession
windows. -/
def get_usempl_data_align (s : List TimePoint) (frwd bkwd : Nat) :
    Except AlignError (List WideRow × List ℚ × List Date) :=
  alignWindows s (usempl_pk_init bkwd frwd) maxdate_rng_lst

/-- Derived closed form of one merge step: under unique right keys, a left
merge extends every axis row with the (unique or absent) match. -/
def extendRow (long : List LongRow) (r : WideRow) : WideRow :=
  ⟨r.mthsFrmPeak,
   r.groups ++ [groupOf (long.find? (fun lr => decide (lr.offset = r.mthsFrmPeak)))]⟩

/-- Derived closed form of the column group window `(pv, pd)` contributes at
axis value `k`. -/
def windowGroup (s : List TimePoint) (pv : ℚ) (pd : Date) (k : Int) : WGroup :=
  groupOf ((longTable s pv pd).find? (fun lr => decide (lr.offset = k)))

theorem mergeWindow_cons (r : WideRow) (t : List WideRow) (long : List LongRow) :
    mergeWindow (r :: t) long =
      (match long.filter (fun lr => decide (lr.offset = r.mthsFrmPeak)) with
       | [] => [(⟨r.mthsFrmPeak, r.groups ++ [groupOf none]⟩ : WideRow)]
       | ms => ms.map (fun lr => ⟨r.mthsFrmPeak, r.groups ++ [groupOf (some lr)]⟩)) ++
        mergeWindow t long := rfl

theorem filter_eq_find_of_nodup (long : List LongRow) (k : Int)
    (h : (long.map (fun lr => lr.offset)).Nodup) :
    long.filter (fun lr => decide (lr.offset = k)) =
      (long.find? (fun lr => decide (lr.offset = k))).toList := by
  induction long with
  | nil => rfl
  | cons lr rest ih =>
    rw [List.map_cons, List.nodup_cons] at h
    cases hd : decide (lr.offset = k) with
    | true =>
      have hk : lr.offset = k := of_decide_eq_true hd
      simp only [List.filter_cons, List.find?_cons, hd, if_true, cond_true,
        Option.toList_some]
      have hrest : rest.filter (fun lr' => decide (lr'.offset = k)) = [] := by
        rw [List.filter_eq_nil_iff]
        intro lr' hmem
        simp only [decide_eq_true_eq]
        intro hoff
        exact h.1 (by rw [hk, ← hoff]; exact List.mem_map_of_mem _ hmem)
      rw [hrest]
    | false =>
      simp only [List.filter_cons, List.find?_cons, hd, if_false, cond_false]
      exact ih h.2

theorem mergeWindow_eq_map (t : List WideRow) (long : List LongRow)
    (h : (long.map (fun lr => lr.offset)).Nodup) :
    mergeWindow t long = t.map (extendRow long) := by
  induction t with
  | nil => rfl
  | cons r rest ih =>
    rw [mergeWindow_cons, filter_eq_find_of_nodup long r.mthsFrmPeak h, ih,
      List.map_cons]
    cases hf : long.find? (fun lr => decide (lr.offset = r.mthsFrmPeak)) with
    | none => simp [extendRow, hf]
    | some lr => simp [extendRow, hf]

theorem longTable_offsets_nodup {s : List TimePoint} (h : monthlySeries s)
    (pv : ℚ) (pd : Date) :
    ((longTable s pv pd).map (fun lr => lr.offset)).Nodup := by
  have hmap : (longTable s pv pd).map (fun lr => lr.offset) =
      s.map (fun p => mths_frm_peak p.1 pd) := by
    rw [longTable, List.map_map]
    rfl
  rw [hmap]
  have hpw : s.Pairwise
      (fun p q => mths_frm_peak p.1 pd ≠ mths_frm_peak q.1 pd) := by
    refine List.Pairwise.imp_of_mem ?_ h.2
    intro p q hp hq hne
    have hbp := h.1 p hp
    have hbq := h.1 q hq
    unfold mths_frm_peak
    omega
  exact List.pairwise_map.mpr hpw

theorem processWindow_ok {s : List TimePoint} {rng : Date × Date}
    {pv : ℚ} {pd : Date} {long : List LongRow}
    (h : processWindow s rng = .ok (pv, pd, long)) :
    peak_val s rng.1 rng.2 = some pv ∧ peak_date s rng.1 rng.2 pv = some pd ∧
      long = longTable s pv pd := by
  unfold processWindow at h
  split at h
  next => simp at h
  next pv' hpeak =>
    split at h
    next => simp at h
    next pd' hdate =>
      simp only [Except.ok.injEq, Prod.mk.injEq] at h
      obtain ⟨e1, e2, e3⟩ := h
      subst e1; subst e2; subst e3
      exact ⟨hpeak, hdate, rfl⟩

theorem alignWindows_ok_char {s : List TimePoint} (hm : monthlySeries s) :
    ∀ (rngs : List (Date × Date)) (t tbl : List WideRow) (pvs : List ℚ)
      (pds : List Date),
      alignWindows s t rngs = .ok (tbl, pvs, pds) →
      pvs.length = rngs.length ∧ pds.length = rngs.length ∧
        tbl = t.map (fun r =>
          ⟨r.mthsFrmPeak,
           r.groups ++
             (pvs.zip pds).map (fun x => windowGroup s x.1 x.2 r.mthsFrmPeak)⟩) := by
  intro rngs
  induction rngs with
  | nil =>
    intro t tbl pvs pds h
    simp only [alignWindows, Except.ok.injEq, Prod.mk.injEq] at h
    obtain ⟨h1, h2, h3⟩ := h
    subst h1; subst h2; subst h3
    refine ⟨rfl, rfl, ?_⟩
    symm
    conv_rhs => rw [← List.map_id t]
    exact List.map_congr_left (fun r _ => by simp)
  | cons rng rest ih =>
    intro t tbl pvs pds h
    simp only [alignWindows] at h
    split at h
    next e hp => simp at h
    next pv pd long hp =>
      split at h
      next e ha => simp at h
      next t2 pvs' pds' ha =>
        simp only [Except.ok.injEq, Prod.mk.injEq] at h
        obtain ⟨h1, h2, h3⟩ := h
        subst h1; subst h2; subst h3
        obtain ⟨hpv, hpd, hlong⟩ := processWindow_ok hp
        subst hlong
        obtain ⟨l1, l2, l3⟩ := ih (mergeWindow t (longTable s pv pd)) t2 pvs' pds' ha
        refine ⟨by simp [l1], by simp [l2], ?_⟩
        rw [l3, mergeWindow_eq_map _ _ (longTable_offsets_nodup hm pv pd),
          List.map_map]
        apply List.map_congr_left
        intro r hr
        simp only [Function.comp_apply, extendRow, windowGroup,
          List.zip_cons_cons, List.map_cons]
        rw [List.append_assoc, List.singleton_append]

theorem alignWindows_ok_peaks {s : List TimePoint} :
    ∀ (rngs : List (Date × Date)) (t tbl : List WideRow) (pvs : List ℚ)
      (pds : List Date),
      alignWindows s t rngs = .ok (tbl, pvs, pds) →
      ∀ (i : Nat) (rng : Date × Date), rngs[i]? = some rng →
        ∃ pv pd, pvs[i]? = some pv ∧ pds[i]? = some pd ∧
          processWindow s rng = .ok (pv, pd, longTable s pv pd) := by
  intro rngs
  induction rngs with
  | nil => intro t tbl pvs pds h i rng hi; simp at hi
  | cons rng0 rest ih =>
    intro t tbl pvs pds h i rng hi
    simp only [alignWindows] at h
    split at h
    next e hp => simp at h
    next pv pd long hp =>
      split at h
      next e ha => simp at h
      next t2 pvs' pds' ha =>
        simp only [Except.ok.injEq, Prod.mk.injEq] at h
        obtain ⟨h1, h2, h3⟩ := h
        subst h1; subst h2; subst h3
        cases i with
        | zero =>
          simp only [List.getElem?_cons_zero, Option.some.injEq] at hi
          subst hi
          obtain ⟨hpv, hpd, hlong⟩ := processWindow_ok hp
          subst hlong
          exact ⟨pv, pd, by simp, by simp, hp⟩
        | succ j =>
          simp only [List.getElem?_cons_succ] at hi
          obtain ⟨pv', pd', hg1, hg2, hg3⟩ := ih _ _ _ _ ha j rng hi
          exact ⟨pv', pd', by simpa using hg1, by simpa using hg2, hg3⟩

theorem intRangeAux_mem : ∀ (n : Nat) (a k : Int),
    k ∈ intRangeAux n a ↔ a ≤ k ∧ k < a + n := by
  intro n
  induction n with
  | zero => intro a k; simp [intRangeAux]
  | succ m ih =>
    intro a k
    simp only [intRangeAux, List.mem_cons, ih]
    omega

theorem intRangeAux_length : ∀ (n : Nat) (a : Int),
    (intRangeAux n a).length = n := by
  intro n
  induction n with
  | zero => intro a; rfl
  | succ m ih => intro a; simp [intRangeAux, ih]

theorem intRangeAux_chain : ∀ (n : Nat) (a : Int),
    (intRangeAux n a).Chain' (fun x y => y = x + 1) := by
  intro n
  induction n with
  | zero => intro a; simp [intRangeAux]
  | succ m ih =>
    intro a
    rw [intRangeAux, List.chain'_cons']
    refine ⟨?_, ih (a + 1)⟩
    intro b hb
    cases m with
    | zero => simp [intRangeAux] at hb
    | succ m' =>
      simp only [intRangeAux, List.head?_cons, Option.mem_def,
        Option.some.injEq] at hb
      omega

theorem intRangeAux_nodup : ∀ (n : Nat) (a : Int),
    (intRangeAux n a).Nodup := by
  intro n
  induction n with
  | zero => intro a; simp [intRangeAux]
  | succ m ih =>
    intro a
    rw [intRangeAux, List.nodup_cons]
    refine ⟨?_, ih (a + 1)⟩
    rw [intRangeAux_mem]
    omega

theorem intRange_mem {a b k : Int} (h : a ≤ b + 1) :
    k ∈ intRange a b ↔ a ≤ k ∧ k ≤ b := by
  unfold intRange
  rw [intRangeAux_mem]
  omega

theorem intRange_length (a b : Int) :
    (intRange a b).length = (b + 1 - a).toNat := by
  unfold intRange
  rw [intRangeAux_length]

theorem intRange_chain (a b : Int) :
    (intRange a b).Chain' (fun x y => y = x + 1) :=
  intRangeAux_chain _ _

theorem intRange_nodup (a b : Int) : (intRange a b).Nodup :=
  intRangeAux_nodup _ _

theorem zip_getElem?_iff {α β : Type} :
    ∀ (l1 : List α) (l2 : List β) (i : Nat) (a : α) (b : β),
      (l1.zip l2)[i]? = some (a, b) ↔ l1[i]? = some a ∧ l2[i]? = some b := by
  intro l1
  induction l1 with
  | nil => intro l2 i a b; simp
  | cons x xs ih =>
    intro l2 i a b
    cases l2 with
    | nil => simp
    | cons y ys =>
      cases i with
      | zero =>
        simp only [List.zip_cons_cons, List.getElem?_cons_zero,
          Option.some.injEq, Prod.mk.injEq]
      | succ j =>
        simp only [List.zip_cons_cons, List.getElem?_cons_succ]
        exact ih ys j a b

theorem monthly_unique {s : List TimePoint} (h : monthlySeries s) :
    ∀ p ∈ s, ∀ q ∈ s, p.1.year = q.1.year → p.1.month = q.1.month → p = q := by
  have hpw := h.2
  clear h
  induction s with
  | nil => simp
  | cons r rest ih =>
    rw [List.pairwise_cons] at hpw
    intro p hp q hq hy hm
    rcases List.mem_cons.mp hp with hp1 | hp1 <;>
      rcases List.mem_cons.mp hq with hq1 | hq1
    · rw [hp1, hq1]
    · subst hp1
      rcases hpw.1 q hq1 with hc | hc
      · exact absurd hy hc
      · exact absurd hm hc
    · subst hq1
      rcases hpw.1 p hp1 with hc | hc
      · exact absurd hy.symm hc
      · exact absurd hm.symm hc
    · exact ih hpw.2 p hp1 q hq1 hy hm

/-- Claim C1: for every recession window, the peak value reported by
`get_usempl_data` is the maximum non-missing series value among points whose
date lies in the search range (bounds inclusive), and the reported peak date
is the latest date among points in that range whose value equals that
maximum exactly (tie-break: most recent).  The hypothesis states that the
range holds at least one non-missing value; when it admits a single point,
`pv ∈ windowVals` forces the peak to be that point's value. -/
theorem get_usempl_data_peak_correct (s : List TimePoint) (d0 d1 : Date)
    (h : windowVals s d0 d1 ≠ []) :
    ∃ pv pd, peak_val s d0 d1 = some pv ∧ peak_date s d0 d1 pv = some pd ∧
      pv ∈ windowVals s d0 d1 ∧
      (∀ v ∈ windowVals s d0 d1, v ≤ pv) ∧
      (pd, some pv) ∈ s ∧ Date.le d0 pd ∧ Date.le pd d1 ∧
      (∀ p ∈ s, Date.le d0 p.1 → Date.le p.1 d1 → p.2 = some pv →
        Date.le p.1 pd) := by
  cases hpv : peak_val s d0 d1 with
  | none =>
    rw [peak_val, qmax?_eq_none_iff] at hpv
    exact absurd hpv h
  | some pv =>
    have hmem : pv ∈ windowVals s d0 d1 := qmax?_mem hpv
    have hub : ∀ v ∈ windowVals s d0 d1, v ≤ pv := qmax?_isUB hpv
    obtain ⟨p0, hp0w, hp0v⟩ := List.mem_filterMap.mp hmem
    obtain ⟨hp0s, hp0r⟩ := List.mem_filter.mp hp0w
    rw [Bool.and_eq_true, decide_eq_true_eq, decide_eq_true_eq] at hp0r
    have hc : p0.1 ∈ peakDateCands s d0 d1 pv := by
      refine List.mem_map_of_mem _ (List.mem_filter.mpr ⟨hp0s, ?_⟩)
      simp [hp0r.1, hp0r.2, hp0v]
    cases hpd : peak_date s d0 d1 pv with
    | none =>
      rw [peak_date, dmax?_eq_none_iff] at hpd
      rw [hpd] at hc
      exact absurd hc (List.not_mem_nil _)
    | some pd =>
      have hpdmem : pd ∈ peakDateCands s d0 d1 pv := dmax?_mem hpd
      have hpdub : ∀ d ∈ peakDateCands s d0 d1 pv, Date.le d pd :=
        dmax?_isUB hpd
      obtain ⟨q, hqf, hq1⟩ := List.mem_map.mp hpdmem
      obtain ⟨hqs, hqr⟩ := List.mem_filter.mp hqf
      rw [Bool.and_eq_true, Bool.and_eq_true, decide_eq_true_eq,
        decide_eq_true_eq, decide_eq_true_eq] at hqr
      refine ⟨pv, pd, rfl, hpd, hmem, hub, ?_, ?_, ?_, ?_⟩
      · have hq : q = (pd, some pv) := by
          rw [Prod.ext_iff]
          exact ⟨hq1, hqr.2⟩
        rw [← hq]
        exact hqs
      · rw [← hq1]; exact hqr.1.1
      · rw [← hq1]; exact hqr.1.2
      · intro p hp hle1 hle2 hval
        refine hpdub p.1 ?_
        refine List.mem_map_of_mem _ (List.mem_filter.mpr ⟨hp, ?_⟩)
        simp [hle1, hle2, hval]

/-- Concrete series used to instantiate claim C1: four monthly points of
the 1929 search window, with a tie for the maximum. -/
def tieSeries : List TimePoint :=
  [(⟨1929, 7, 1⟩, some 5), (⟨1929, 8, 1⟩, some 7),
   (⟨1929, 9, 1⟩, some 7), (⟨1929, 12, 1⟩, some 9)]

/-- Claim C1 witness: the theorem instantiated at a concrete series and the
1929 search window. -/
theorem get_usempl_data_peak_correct_witness :
    windowVals tieSeries ⟨1929, 7, 1⟩ ⟨1929, 10, 1⟩ ≠ [] ∧
    (∃ pv pd, peak_val tieSeries ⟨1929, 7, 1⟩ ⟨1929, 10, 1⟩ = some pv ∧
      peak_date tieSeries ⟨1929, 7, 1⟩ ⟨1929, 10, 1⟩ pv = some pd ∧
      pv ∈ windowVals tieSeries ⟨1929, 7, 1⟩ ⟨1929, 10, 1⟩ ∧
      (∀ v ∈ windowVals tieSeries ⟨1929, 7, 1⟩ ⟨1929, 10, 1⟩, v ≤ pv) ∧
      (pd, some pv) ∈ tieSeries ∧ Date.le ⟨1929, 7, 1⟩ pd ∧
      Date.le pd ⟨1929, 10, 1⟩ ∧
      (∀ p ∈ tieSeries, Date.le ⟨1929, 7, 1⟩ p.1 →
        Date.le p.1 ⟨1929, 10, 1⟩ → p.2 = some pv → Date.le p.1 pd)) :=
  ⟨by decide, get_usempl_data_peak_correct tieSeries ⟨1929, 7, 1⟩ ⟨1929, 10, 1⟩
    (by decide)⟩

/-- Whether an alignment outcome is the spec's `NoPeakFoundError`. -/
def isNoPeakFoundError {α : Type} : Except AlignError α → Bool
  | .error (.noPeakFound _) => true
  | _ => false

/-- A series whose only point lies in the first search window with a
missing value, so that the 1929 window holds no non-missing value. -/
def allMissingSeries : List TimePoint := [(⟨1929, 7, 1⟩, none)]

/-- Claim C3 counterexample: on a series whose 1929 search range holds only
a missing value, the alignment aborts with the NaT-strftime error
(the `ValueError` raised by `peak_date.strftime` at line 226 of
src/fedfunds_plot.py when the peak-date selection is empty), not with any
`NoPeakFoundError`: no such error exists in the code. -/
theorem noPeakFound_never_raised_cex :
    get_usempl_data_align allMissingSeries 35 4 = .error .natStrftime ∧
    isNoPeakFoundError (get_usempl_data_align allMissingSeries 35 4) = false := by
  constructor <;> rfl

/-- Claim C3 (amended): a window whose search range holds no non-missing
value still aborts the whole alignment fatally (it is not skipped and does
not yield a silent NaN peak in the returned data), but the failure is the
NaT-strftime `ValueError` of line 226 — the code computes a NaN `peak_val`,
the peak-date selection is then empty, and formatting the NaT peak date
raises — not a `NoPeakFoundError` naming the window label. -/
theorem empty_window_aborts (s : List TimePoint) (rng : Date × Date)
    (rest : List (Date × Date)) (t : List WideRow)
    (h : windowVals s rng.1 rng.2 = []) :
    processWindow s rng = .error .natStrftime ∧
    alignWindows s t (rng :: rest) = .error .natStrftime := by
  have hpv : peak_val s rng.1 rng.2 = none := by
    rw [peak_val, qmax?_eq_none_iff]
    exact h
  have hpw : processWindow s rng = .error .natStrftime := by
    unfold processWindow
    rw [hpv]
  refine ⟨hpw, ?_⟩
  simp only [alignWindows]
  rw [hpw]

/-- Claim C3 (amended) witness: the amended theorem instantiated at the
concrete all-missing series and the 1929 window. -/
theorem empty_window_aborts_witness :
    windowVals allMissingSeries ⟨1929, 7, 1⟩ ⟨1929, 10, 1⟩ = [] ∧
    (processWindow allMissingSeries (⟨1929, 7, 1⟩, ⟨1929, 10, 1⟩) =
        .error .natStrftime ∧
      alignWindows allMissingSeries []
        [(⟨1929, 7, 1⟩, ⟨1929, 10, 1⟩)] = .error .natStrftime) :=
  ⟨by decide,
   empty_window_aborts allMissingSeries (⟨1929, 7, 1⟩, ⟨1929, 10, 1⟩) [] []
     (by decide)⟩

theorem usempl_pk_init_mem {bkwd frwd : Nat} {r : WideRow}
    (h : r ∈ usempl_pk_init bkwd frwd) :
    r.groups = [] ∧ r.mthsFrmPeak ∈ intRange (-(bkwd : Int)) (frwd : Int) := by
  unfold usempl_pk_init at h
  obtain ⟨k, hk, hr⟩ := List.mem_map.mp h
  rw [← hr]
  exact ⟨rfl, hk⟩

theorem longTable_mem {s : List TimePoint} {pv : ℚ} {pd : Date} {lr : LongRow}
    (h : lr ∈ longTable s pv pd) :
    ∃ p ∈ s, lr = longRow pv pd p := by
  obtain ⟨p, hp, he⟩ := List.mem_map.mp h
  exact ⟨p, hp, he.symm⟩

/-- Claim C2: for every calendar-monthly series and all window sizes, the
`mths_frm_peak` column of the wide table returned by `get_usempl_data` is
exactly the integers from `-bkwd_mths_max` to `frwd_mths_max` inclusive, in
increasing order, with no gaps and no duplicates, no matter how many
windows match a given offset; and an offset with no matching point in some
window keeps its row, with missing markers in that window's columns. -/
theorem usempl_pk_axis_exact (s : List TimePoint) (frwd bkwd : Nat)
    (tbl : List WideRow) (pvs : List ℚ) (pds : List Date)
    (hm : monthlySeries s)
    (hok : get_usempl_data_align s frwd bkwd = .ok (tbl, pvs, pds)) :
    tbl.map (fun r => r.mthsFrmPeak) = intRange (-(bkwd : Int)) (frwd : Int) ∧
    (∀ k : Int, k ∈ tbl.map (fun r => r.mthsFrmPeak) ↔
      -(bkwd : Int) ≤ k ∧ k ≤ (frwd : Int)) ∧
    (tbl.map (fun r => r.mthsFrmPeak)).Chain' (fun x y => y = x + 1) ∧
    (tbl.map (fun r => r.mthsFrmPeak)).Nodup ∧
    (∀ r ∈ tbl, ∀ (i : Nat) (pv : ℚ) (pd : Date),
      pvs[i]? = some pv → pds[i]? = some pd →
      (∀ p ∈ s, mths_frm_peak p.1 pd ≠ r.mthsFrmPeak) →
      r.groups[i]? = some ⟨none, none, none⟩) := by
  obtain ⟨hl1, hl2, hchar⟩ :=
    alignWindows_ok_char hm maxdate_rng_lst (usempl_pk_init bkwd frwd)
      tbl pvs pds hok
  have hkeys : tbl.map (fun r => r.mthsFrmPeak) =
      intRange (-(bkwd : Int)) (frwd : Int) := by
    rw [hchar, List.map_map, usempl_pk_init, List.map_map]
    exact List.map_id _
  refine ⟨hkeys, ?_, ?_, ?_, ?_⟩
  · intro k
    rw [hkeys, intRange_mem (by omega)]
  · rw [hkeys]; exact intRange_chain _ _
  · rw [hkeys]; exact intRange_nodup _ _
  · intro r hr i pv pd hpv hpd hnomatch
    rw [hchar] at hr
    obtain ⟨r0, hr0, hreq⟩ := List.mem_map.mp hr
    obtain ⟨hg0, -⟩ := usempl_pk_init_mem hr0
    have hkey : r.mthsFrmPeak = r0.mthsFrmPeak := by rw [← hreq]
    have hgr : r.groups =
        (pvs.zip pds).map (fun x => windowGroup s x.1 x.2 r0.mthsFrmPeak) := by
      rw [← hreq]
      simp [hg0]
    rw [hgr, List.getElem?_map,
      (zip_getElem?_iff pvs pds i pv pd).mpr ⟨hpv, hpd⟩]
    have hfind : (longTable s pv pd).find?
        (fun lr => decide (lr.offset = r0.mthsFrmPeak)) = none := by
      rw [List.find?_eq_none]
      intro lr hlr
      obtain ⟨p, hp, he⟩ := longTable_mem hlr
      simp only [he, longRow, decide_eq_true_eq]
      rw [← hkey]
      exact hnomatch p hp
    simp [windowGroup, hfind, groupOf]

/-- Claim C4: for every recession window, the months-from-peak offset is
computed for every point of the full loaded series by pure calendar-month
arithmetic (first conjunct), and in every matched output row the stored
axis offset equals that formula applied to the row's date and the window's
peak date exactly (second conjunct). -/
theorem mths_frm_peak_formula (s : List TimePoint) (frwd bkwd : Nat)
    (tbl : List WideRow) (pvs : List ℚ) (pds : List Date)
    (hm : monthlySeries s)
    (hok : get_usempl_data_align s frwd bkwd = .ok (tbl, pvs, pds)) :
    (∀ (pv : ℚ) (pd : Date),
      (longTable s pv pd).map (fun lr => lr.offset) =
        s.map (fun p => (p.1.year - pd.year) * 12 + (p.1.month - pd.month))) ∧
    (∀ r ∈ tbl, ∀ (i : Nat) (g : WGroup) (d : Date),
      r.groups[i]? = some g → g.date = some d →
      ∃ pd, pds[i]? = some pd ∧ r.mthsFrmPeak = mths_frm_peak d pd) := by
  obtain ⟨hl1, hl2, hchar⟩ :=
    alignWindows_ok_char hm maxdate_rng_lst (usempl_pk_init bkwd frwd)
      tbl pvs pds hok
  constructor
  · intro pv pd
    rw [longTable, List.map_map]
    rfl
  · intro r hr i g d hg hd
    rw [hchar] at hr
    obtain ⟨r0, hr0, hreq⟩ := List.mem_map.mp hr
    obtain ⟨hg0, -⟩ := usempl_pk_init_mem hr0
    have hkey : r.mthsFrmPeak = r0.mthsFrmPeak := by rw [← hreq]
    have hgr : r.groups =
        (pvs.zip pds).map (fun x => windowGroup s x.1 x.2 r0.mthsFrmPeak) := by
      rw [← hreq]
      simp [hg0]
    rw [hgr, List.getElem?_map] at hg
    cases hz : (pvs.zip pds)[i]? with
    | none => rw [hz] at hg; simp at hg
    | some x =>
      rw [hz] at hg
      simp only [Option.map_some', Option.some.injEq] at hg
      obtain ⟨hpvx, hpdx⟩ := (zip_getElem?_iff pvs pds i x.1 x.2).mp (by
        rw [hz])
      refine ⟨x.2, hpdx, ?_⟩
      rw [← hg] at hd
      unfold windowGroup at hd
      cases hfind : (longTable s x.1 x.2).find?
          (fun lr => decide (lr.offset = r0.mthsFrmPeak)) with
      | none => rw [hfind] at hd; simp [groupOf] at hd
      | some lr =>
        rw [hfind] at hd
        simp only [groupOf, Option.some.injEq] at hd
        have hps := @List.find?_some LongRow
          (fun lr => decide (lr.offset = r0.mthsFrmPeak)) lr _ hfind
        have hoff : lr.offset = r0.mthsFrmPeak := by simpa using hps
        obtain ⟨p, hp, he⟩ := longTable_mem (List.mem_of_find?_eq_some hfind)
        rw [hkey, ← hoff, he]
        simp only [longRow]
        rw [he] at hd
        simp only [longRow] at hd
        rw [← hd]

/-- Claim C5: `get_usempl_data` returns one wide table with one row per
integer offset of the shared axis and, for each of the 15 windows in input
order, a column group of three columns (date, raw value, normalized value
equal to the raw value divided by that window's peak value), plus exactly
one peak record (peak value and peak date) per window, in the same input
order as the window list. -/
theorem get_usempl_data_shape (s : List TimePoint) (frwd bkwd : Nat)
    (tbl : List WideRow) (pvs : List ℚ) (pds : List Date)
    (hm : monthlySeries s)
    (hok : get_usempl_data_align s frwd bkwd = .ok (tbl, pvs, pds)) :
    maxdate_rng_lst.length = 15 ∧
    pvs.length = 15 ∧ pds.length = 15 ∧
    tbl.length = bkwd + frwd + 1 ∧
    tbl.map (fun r => r.mthsFrmPeak) = intRange (-(bkwd : Int)) (frwd : Int) ∧
    (∀ r ∈ tbl, r.groups.length = 15) ∧
    (∀ r ∈ tbl, ∀ (i : Nat) (g : WGroup) (pv : ℚ),
      r.groups[i]? = some g → pvs[i]? = some pv →
      g.dvPk = g.payems.map (fun v => v / pv)) ∧
    (∀ (i : Nat) (rng : Date × Date), maxdate_rng_lst[i]? = some rng →
      ∃ pv pd, pvs[i]? = some pv ∧ pds[i]? = some pd ∧
        peak_val s rng.1 rng.2 = some pv ∧
        peak_date s rng.1 rng.2 pv = some pd) := by
  obtain ⟨hl1, hl2, hchar⟩ :=
    alignWindows_ok_char hm maxdate_rng_lst (usempl_pk_init bkwd frwd)
      tbl pvs pds hok
  have hlen15 : maxdate_rng_lst.length = 15 := rfl
  have hpvs15 : pvs.length = 15 := by rw [hl1, hlen15]
  have hpds15 : pds.length = 15 := by rw [hl2, hlen15]
  refine ⟨hlen15, hpvs15, hpds15, ?_, ?_, ?_, ?_, ?_⟩
  · rw [hchar, List.length_map, usempl_pk_init, List.length_map,
      intRange_length]
    omega
  · rw [hchar, List.map_map, usempl_pk_init, List.map_map]
    exact List.map_id _
  · intro r hr
    rw [hchar] at hr
    obtain ⟨r0, hr0, hreq⟩ := List.mem_map.mp hr
    obtain ⟨hg0, -⟩ := usempl_pk_init_mem hr0
    rw [← hreq]
    simp [hg0, List.length_zip, hpvs15, hpds15]
  · intro r hr i g pv hg hpv
    rw [hchar] at hr
    obtain ⟨r0, hr0, hreq⟩ := List.mem_map.mp hr
    obtain ⟨hg0, -⟩ := usempl_pk_init_mem hr0
    have hgr : r.groups =
        (pvs.zip pds).map (fun x => windowGroup s x.1 x.2 r0.mthsFrmPeak) := by
      rw [← hreq]
      simp [hg0]
    rw [hgr, List.getElem?_map] at hg
    cases hz : (pvs.zip pds)[i]? with
    | none => rw [hz] at hg; simp at hg
    | some x =>
      rw [hz] at hg
      simp only [Option.map_some', Option.some.injEq] at hg
      obtain ⟨hpvx, hpdx⟩ := (zip_getElem?_iff pvs pds i x.1 x.2).mp (by
        rw [hz])
      have hx1 : x.1 = pv := by
        rw [hpvx] at hpv
        exact Option.some.inj hpv
      rw [← hg]
      unfold windowGroup
      cases hfind : (longTable s x.1 x.2).find?
          (fun lr => decide (lr.offset = r0.mthsFrmPeak)) with
      | none => simp [groupOf]
      | some lr =>
        obtain ⟨p, hp, he⟩ := longTable_mem (List.mem_of_find?_eq_some hfind)
        simp only [groupOf, he, longRow, hx1]
  · intro i rng hrng
    obtain ⟨pv, pd, hpv, hpd, hproc⟩ :=
      alignWindows_ok_peaks maxdate_rng_lst (usempl_pk_init bkwd frwd)
        tbl pvs pds hok i rng hrng
    obtain ⟨h1, h2, -⟩ := processWindow_ok hproc
    exact ⟨pv, pd, hpv, hpd, h1, h2⟩

/-- Claim C9: for every calendar-monthly series, whenever a window's peak
value is defined and nonzero, the wide table's normalized-value column for
that window equals exactly 1 at offset 0 (the peak's own month): the value
stored there is the peak value itself, and the normalized column divides
each value by the peak value. -/
theorem usempl_dv_pk_one_at_peak (s : List TimePoint) (frwd bkwd : Nat)
    (tbl : List WideRow) (pvs : List ℚ) (pds : List Date)
    (hm : monthlySeries s)
    (hok : get_usempl_data_align s frwd bkwd = .ok (tbl, pvs, pds))
    (i : Nat) (pv : ℚ) (hpv : pvs[i]? = some pv) (hnz : pv ≠ 0) :
    (∃ r ∈ tbl, r.mthsFrmPeak = 0) ∧
    (∀ r ∈ tbl, r.mthsFrmPeak = 0 →
      ∃ g, r.groups[i]? = some g ∧ g.dvPk = some 1) := by
  obtain ⟨hl1, hl2, hchar⟩ :=
    alignWindows_ok_char hm maxdate_rng_lst (usempl_pk_init bkwd frwd)
      tbl pvs pds hok
  have hkeys : tbl.map (fun r => r.mthsFrmPeak) =
      intRange (-(bkwd : Int)) (frwd : Int) := by
    rw [hchar, List.map_map, usempl_pk_init, List.map_map]
    exact List.map_id _
  have hilt : i < pvs.length := by
    by_contra hge
    rw [List.getElem?_eq_none (Nat.le_of_not_lt hge)] at hpv
    exact Option.noConfusion hpv
  obtain ⟨pd, hpd⟩ : ∃ pd, pds[i]? = some pd := by
    cases hx : pds[i]? with
    | none =>
      rw [List.getElem?_eq_none_iff] at hx
      rw [hl1] at hilt
      rw [hl2] at hx
      omega
    | some pd => exact ⟨pd, rfl⟩
  obtain ⟨rng, hrng⟩ : ∃ rng, maxdate_rng_lst[i]? = some rng := by
    cases hx : maxdate_rng_lst[i]? with
    | none =>
      rw [List.getElem?_eq_none_iff] at hx
      rw [hl1] at hilt
      omega
    | some rng => exact ⟨rng, rfl⟩
  obtain ⟨pv', pd', hpv', hpd', hproc⟩ :=
    alignWindows_ok_peaks maxdate_rng_lst (usempl_pk_init bkwd frwd)
      tbl pvs pds hok i rng hrng
  have hpv2 : pv' = pv := by
    rw [hpv'] at hpv
    exact Option.some.inj hpv
  have hpd2 : pd' = pd := by
    rw [hpd'] at hpd
    exact Option.some.inj hpd
  rw [hpv2, hpd2] at hproc
  obtain ⟨hpkv, hpkd, -⟩ := processWindow_ok hproc
  have hpdmem : pd ∈ peakDateCands s rng.1 rng.2 pv := dmax?_mem hpkd
  obtain ⟨q, hqf, hq1⟩ := List.mem_map.mp hpdmem
  obtain ⟨hqs, hqr⟩ := List.mem_filter.mp hqf
  rw [Bool.and_eq_true, Bool.and_eq_true, decide_eq_true_eq,
    decide_eq_true_eq, decide_eq_true_eq] at hqr
  constructor
  · have h0 : (0 : Int) ∈ tbl.map (fun r => r.mthsFrmPeak) := by
      rw [hkeys, intRange_mem (by omega)]
      omega
    obtain ⟨r, hr, hr0⟩ := List.mem_map.mp h0
    exact ⟨r, hr, hr0⟩
  · intro r hr h0
    rw [hchar] at hr
    obtain ⟨r0, hr0, hreq⟩ := List.mem_map.mp hr
    obtain ⟨hg0, -⟩ := usempl_pk_init_mem hr0
    have hkey : r.mthsFrmPeak = r0.mthsFrmPeak := by rw [← hreq]
    have hgr : r.groups =
        (pvs.zip pds).map (fun x => windowGroup s x.1 x.2 r0.mthsFrmPeak) := by
      rw [← hreq]
      simp [hg0]
    have hz : (pvs.zip pds)[i]? = some (pv, pd) :=
      (zip_getElem?_iff pvs pds i pv pd).mpr ⟨hpv, hpd⟩
    have hgi : r.groups[i]? = some (windowGroup s pv pd r0.mthsFrmPeak) := by
      rw [hgr, List.getElem?_map, hz]
      rfl
    have hk0 : r0.mthsFrmPeak = 0 := by rw [← hkey]; exact h0
    rw [hk0] at hgi
    cases hfind : (longTable s pv pd).find?
        (fun lr => decide (lr.offset = (0 : Int))) with
    | none =>
      exfalso
      rw [List.find?_eq_none] at hfind
      refine hfind (longRow pv pd q) (List.mem_map_of_mem _ hqs) ?_
      simp only [longRow, mths_frm_peak, hq1, decide_eq_true_eq]
      ring
    | some lr =>
      have hps := @List.find?_some LongRow
        (fun lr => decide (lr.offset = (0 : Int))) lr _ hfind
      have hoff : lr.offset = 0 := by simpa using hps
      obtain ⟨p, hp, he⟩ := longTable_mem (List.mem_of_find?_eq_some hfind)
      have hoff2 : mths_frm_peak p.1 pd = 0 := by
        rw [he] at hoff
        exact hoff
      have hbp := hm.1 p hp
      have hbq := hm.1 q hqs
      have hym : p.1.year = q.1.year ∧ p.1.month = q.1.month := by
        rw [← hq1] at hoff2
        unfold mths_frm_peak at hoff2
        omega
      have hpq : p = q := monthly_unique hm p hp q hqs hym.1 hym.2
      have hval : p.2 = some pv := by rw [hpq]; exact hqr.2
      refine ⟨windowGroup s pv pd 0, hgi, ?_⟩
      unfold windowGroup
      rw [hfind]
      simp only [groupOf, he, longRow, hval, Option.map_some']
      rw [div_self hnz]

/-- Concrete calendar-monthly series with one non-missing point inside each
of the fifteen hardcoded search windows, used to instantiate the aligned
claims. -/
def peakSeries15 : List TimePoint :=
  [(⟨1929, 7, 1⟩, some 1), (⟨1937, 7, 1⟩, some 1), (⟨1945, 1, 1⟩, some 1),
   (⟨1948, 9, 1⟩, some 1), (⟨1953, 6, 1⟩, some 1), (⟨1957, 7, 1⟩, some 1),
   (⟨1960, 3, 1⟩, some 1), (⟨1969, 11, 1⟩, some 1), (⟨1973, 10, 1⟩, some 1),
   (⟨1979, 12, 1⟩, some 1), (⟨1981, 6, 1⟩, some 1), (⟨1990, 6, 1⟩, some 1),
   (⟨2001, 2, 1⟩, some 1), (⟨2007, 11, 1⟩, some 1), (⟨2020, 1, 1⟩, some 1)]

/-- The peak dates of `peakSeries15`, one per window, in input order. -/
def peakDates15 : List Date :=
  [⟨1929, 7, 1⟩, ⟨1937, 7, 1⟩, ⟨1945, 1, 1⟩, ⟨1948, 9, 1⟩, ⟨1953, 6, 1⟩,
   ⟨1957, 7, 1⟩, ⟨1960, 3, 1⟩, ⟨1969, 11, 1⟩, ⟨1973, 10, 1⟩, ⟨1979, 12, 1⟩,
   ⟨1981, 6, 1⟩, ⟨1990, 6, 1⟩, ⟨2001, 2, 1⟩, ⟨2007, 11, 1⟩, ⟨2020, 1, 1⟩]

/-- The wide table `get_usempl_data` builds from `peakSeries15` with one
month backward and one month forward. -/
def wideTableW : List WideRow :=
  [⟨-1, List.replicate 15 ⟨none, none, none⟩⟩,
   ⟨0, peakDates15.map (fun d => ⟨some d, some 1, some (1 / 1)⟩)⟩,
   ⟨1, List.replicate 15 ⟨none, none, none⟩⟩]

/-- Claim C2 witness: the axis-exactness theorem instantiated at
`peakSeries15` with one month backward and forward. -/
theorem usempl_pk_axis_exact_witness :
    monthlySeries peakSeries15 ∧
    get_usempl_data_align peakSeries15 1 1 =
      .ok (wideTableW, List.replicate 15 (1 : ℚ), peakDates15) ∧
    (wideTableW.map (fun r => r.mthsFrmPeak) =
        intRange (-(1 : Int)) (1 : Int) ∧
     (∀ k : Int, k ∈ wideTableW.map (fun r => r.mthsFrmPeak) ↔
       -(1 : Int) ≤ k ∧ k ≤ (1 : Int)) ∧
     (wideTableW.map (fun r => r.mthsFrmPeak)).Chain' (fun x y => y = x + 1) ∧
     (wideTableW.map (fun r => r.mthsFrmPeak)).Nodup ∧
     (∀ r ∈ wideTableW, ∀ (i : Nat) (pv : ℚ) (pd : Date),
       (List.replicate 15 (1 : ℚ))[i]? = some pv →
       peakDates15[i]? = some pd →
       (∀ p ∈ peakSeries15, mths_frm_peak p.1 pd ≠ r.mthsFrmPeak) →
       r.groups[i]? = some ⟨none, none, none⟩)) :=
  ⟨by decide, by rfl,
   usempl_pk_axis_exact peakSeries15 1 1 wideTableW
     (List.replicate 15 (1 : ℚ)) peakDates15 (by decide) (by rfl)⟩

/-- Claim C4 witness: the offset-formula theorem instantiated at
`peakSeries15` with one month backward and forward. -/
theorem mths_frm_peak_formula_witness :
    monthlySeries peakSeries15 ∧
    get_usempl_data_align peakSeries15 1 1 =
      .ok (wideTableW, List.replicate 15 (1 : ℚ), peakDates15) ∧
    ((∀ (pv : ℚ) (pd : Date),
      (longTable peakSeries15 pv pd).map (fun lr => lr.offset) =
        peakSeries15.map
          (fun p => (p.1.year - pd.year) * 12 + (p.1.month - pd.month))) ∧
     (∀ r ∈ wideTableW, ∀ (i : Nat) (g : WGroup) (d : Date),
       r.groups[i]? = some g → g.date = some d →
       ∃ pd, peakDates15[i]? = some pd ∧
         r.mthsFrmPeak = mths_frm_peak d pd)) :=
  ⟨by decide, by rfl,
   mths_frm_peak_formula peakSeries15 1 1 wideTableW
     (List.replicate 15 (1 : ℚ)) peakDates15 (by decide) (by rfl)⟩

/-- Claim C5 witness: the shape theorem instantiated at `peakSeries15`
with one month backward and forward. -/
theorem get_usempl_data_shape_witness :
    monthlySeries peakSeries15 ∧
    get_usempl_data_align peakSeries15 1 1 =
      .ok (wideTableW, List.replicate 15 (1 : ℚ), peakDates15) ∧
    (maxdate_rng_lst.length = 15 ∧
     (List.replicate 15 (1 : ℚ)).length = 15 ∧ peakDates15.length = 15 ∧
     wideTableW.length = 1 + 1 + 1 ∧
     wideTableW.map (fun r => r.mthsFrmPeak) =
       intRange (-(1 : Int)) (1 : Int) ∧
     (∀ r ∈ wideTableW, r.groups.length = 15) ∧
     (∀ r ∈ wideTableW, ∀ (i : Nat) (g : WGroup) (pv : ℚ),
       r.groups[i]? = some g → (List.replicate 15 (1 : ℚ))[i]? = some pv →
       g.dvPk = g.payems.map (fun v => v / pv)) ∧
     (∀ (i : Nat) (rng : Date × Date), maxdate_rng_lst[i]? = some rng →
       ∃ pv pd, (List.replicate 15 (1 : ℚ))[i]? = some pv ∧
         peakDates15[i]? = some pd ∧
         peak_val peakSeries15 rng.1 rng.2 = some pv ∧
         peak_date peakSeries15 rng.1 rng.2 pv = some pd)) :=
  ⟨by decide, by rfl,
   get_usempl_data_shape peakSeries15 1 1 wideTableW
     (List.replicate 15 (1 : ℚ)) peakDates15 (by decide) (by rfl)⟩

/-- Claim C9 witness: the normalized-value theorem instantiated at
`peakSeries15`, window 0, peak value 1. -/
theorem usempl_dv_pk_one_at_peak_witness :
    monthlySeries peakSeries15 ∧
    get_usempl_data_align peakSeries15 1 1 =
      .ok (wideTableW, List.replicate 15 (1 : ℚ), peakDates15) ∧
    (List.replicate 15 (1 : ℚ))[0]? = some 1 ∧ (1 : ℚ) ≠ 0 ∧
    ((∃ r ∈ wideTableW, r.mthsFrmPeak = 0) ∧
     (∀ r ∈ wideTableW, r.mthsFrmPeak = 0 →
       ∃ g, r.groups[0]? = some g ∧ g.dvPk = some 1)) :=
  ⟨by decide, by rfl, by rfl, by decide,
   usempl_dv_pk_one_at_peak peakSeries15 1 1 wideTableW
     (List.replicate 15 (1 : ℚ)) peakDates15 (by decide) (by rfl) 0 1
     (by rfl) (by decide)⟩

/-- Ordered insertion into a date-sorted row list. -/
def sortedInsert (p : TimePoint) : List TimePoint → List TimePoint
  | [] => [p]
  | q :: rest =>
    if Date.le p.1 q.1 then p :: q :: rest else q :: sortedInsert p rest

/-- Lines 122-123 (and 132-133): `usempl_df.sort_values(by='Date')` followed
by `reset_index`, sorting the rows chronologically. -/
def sortByDate : List TimePoint → List TimePoint
  | [] => []
  | p :: rest => sortedInsert p (sortByDate rest)

theorem sortedInsert_mem (p q : TimePoint) (l : List TimePoint) :
    q ∈ sortedInsert p l ↔ q = p ∨ q ∈ l := by
  induction l with
  | nil => simp [sortedInsert]
  | cons r rest ih =>
    unfold sortedInsert
    split
    · simp
    · simp only [List.mem_cons, ih]
      tauto

theorem sortByDate_mem (q : TimePoint) (l : List TimePoint) :
    q ∈ sortByDate l ↔ q ∈ l := by
  induction l with
  | nil => simp [sortByDate]
  | cons p rest ih =>
    unfold sortByDate
    rw [sortedInsert_mem]
    simp only [List.mem_cons, ih]

/-- Lines 121-124: the rows written to the cache file
`usempl_[end_date].csv` by `to_csv` — the downloaded monthly rows plus the
appended annual 1919-1938 rows, date-sorted.  This write happens before the
monthly-grid merge and the interpolation of lines 127-135. -/
def cacheFileRows (fred ann : List TimePoint) : List TimePoint :=
  sortByDate (fred ++ ann)

/-- Lines 136-143: cache mode re-reads the written file (`read_csv` with
`parse_dates` and `na_values`, then `dropna()`): dates and non-missing
float values round-trip through the CSV text exactly, missing cells are
written empty and parsed back as NaN, and `dropna` removes every row whose
value is missing. -/
def cacheLoad (file : List TimePoint) : List TimePoint :=
  file.filter (fun p => p.2.isSome)

/-- Lines 127-129: `pd.date_range('1919-01-01', '1938-12-01', freq='MS')`,
the 240 month-start dates of 1919-1938. -/
def monthsRange1919to1938 : List Date :=
  (List.range 240).map
    (fun i => ⟨1919 + ((i / 12 : Nat) : Int), 1 + ((i % 12 : Nat) : Int), 1⟩)

/-- Lines 130-133: `pd.merge(usempl_df, months_df, on='Date', how='outer')`
followed by `sort_values(by='Date')`: the existing rows plus one NaN-valued
row for each grid month not already present, date-sorted. -/
def mergeMonths (s : List TimePoint) (months : List Date) : List TimePoint :=
  sortByDate (s ++
    (months.filter (fun d => decide (d ∉ s.map (fun p => p.1)))).map
      (fun d => (d, (none : Option ℚ))))

/-- The `Date` column of the series a download-mode run hands to the
aligner (lines 127-135): the interpolation at lines 134-135 assigns only to
the `PAYEMS` column (`usempl_df['PAYEMS'].iloc[:242] = ...`), so the final
frame's dates are exactly those of the month-grid outer merge. -/
def downloadSeriesDates (fred ann : List TimePoint) : List Date :=
  (mergeMonths (cacheFileRows fred ann) monthsRange1919to1938).map
    (fun p => p.1)

/-- The one monthly row the remote fetch returns in the concrete scenario. -/
def fredRows : List TimePoint := [(⟨1939, 1, 1⟩, some 29923)]

/-- The one annual row appended from the 1919-1938 file in the concrete
scenario. -/
def annRows : List TimePoint := [(⟨1919, 7, 1⟩, some 26829)]

set_option maxRecDepth 8000 in
/-- Claim C6 counterexample: re-reading the cache file written by a
download-mode run does not reproduce the series that run used for
alignment — the download-mode series has a (possibly interpolated) row for
every month of 1919-1938 from the month-grid merge, e.g. 1919-02-01, while
the cache was written before that merge and a cache-mode reload has no such
row. -/
theorem cache_reload_differs_cex :
    ((cacheLoad (cacheFileRows fredRows annRows)).map (fun p => p.1) ≠
      downloadSeriesDates fredRows annRows) ∧
    (⟨1919, 2, 1⟩ : Date) ∈ downloadSeriesDates fredRows annRows ∧
    (⟨1919, 2, 1⟩ : Date) ∉
      (cacheLoad (cacheFileRows fredRows annRows)).map (fun p => p.1) := by
  have h2 : (⟨1919, 2, 1⟩ : Date) ∈ downloadSeriesDates fredRows annRows := by
    decide
  have h3 : (⟨1919, 2, 1⟩ : Date) ∉
      (cacheLoad (cacheFileRows fredRows annRows)).map (fun p => p.1) := by
    decide
  refine ⟨?_, h2, h3⟩
  intro h
  rw [h] at h3
  exact h3 h2

/-- Claim C6 (amended): the cache write followed by the cache read is
lossless for the rows present at write time — cache mode reproduces exactly
the non-missing rows of the written file, and nothing else — but the
written file predates the month-grid merge and interpolation, so the reload
is not the series the download-mode run used (see the counterexample): its
rows all come from the downloaded and annual data. -/
theorem cache_roundtrip_write_time (fred ann : List TimePoint) :
    cacheLoad (cacheFileRows fred ann) =
      (sortByDate (fred ++ ann)).filter (fun p => p.2.isSome) ∧
    (∀ p ∈ cacheFileRows fred ann, p.2.isSome = true →
      p ∈ cacheLoad (cacheFileRows fred ann)) ∧
    (∀ p ∈ cacheLoad (cacheFileRows fred ann),
      p ∈ fred ++ ann ∧ p.2.isSome = true) := by
  refine ⟨rfl, ?_, ?_⟩
  · intro p hp hs
    exact List.mem_filter.mpr ⟨hp, hs⟩
  · intro p hp
    obtain ⟨hmem, hs⟩ := List.mem_filter.mp hp
    rw [cacheFileRows, sortByDate_mem] at hmem
    exact ⟨hmem, hs⟩

/-- Split a character list on a separator: the groups between occurrences
of `c` (an empty group at each boundary), as Python's own field splitting
behaves inside `strptime`. -/
def splitOnChar (c : Char) : List Char → List (List Char)
  | [] => [[]]
  | x :: xs =>
    match splitOnChar c xs with
    | [] => if x = c then [[], [x]] else [[x]]
    | g :: gs => if x = c then [] :: g :: gs else (x :: g) :: gs

/-- Parse a non-empty all-digit character group as a natural number. -/
def parseNatDigits (l : List Char) : Option Nat :=
  if l ≠ [] ∧ l.all (fun c => c.isDigit) then
    some (l.foldl (fun n c => 10 * n + (c.toNat - 48)) 0)
  else none

/-- Number of days in a calendar month, as `datetime` validates the day
field of `strptime('%Y-%m-%d')`. -/
def daysInMonth (y m : Int) : Int :=
  if m = 2 then
    (if y % 4 = 0 ∧ (y % 100 ≠ 0 ∨ y % 400 = 0) then 29 else 28)
  else if m = 4 ∨ m = 6 ∨ m = 9 ∨ m = 11 then 30 else 31

/-- `dt.datetime.strptime(s, '%Y-%m-%d')` (line 80 and line 299 of
src/fedfunds_plot.py): three dash-separated fields, 1-4 digit year in
`datetime`'s range, 1-2 digit month and day, with the day validated against
the month; `none` models the `ValueError` raised on any other input. -/
def parseDate (s : String) : Option Date :=
  match splitOnChar '-' s.toList with
  | [ys, ms, ds] =>
    match parseNatDigits ys, parseNatDigits ms, parseNatDigits ds with
    | some y, some m, some d =>
      if 1 ≤ y ∧ ys.length ≤ 4 ∧ ms.length ≤ 2 ∧ ds.length ≤ 2 ∧
          1 ≤ m ∧ m ≤ 12 ∧ 1 ≤ d ∧ (d : Int) ≤ daysInMonth (y : Int) (m : Int)
        then some ⟨(y : Int), (m : Int), (d : Int)⟩
      else none
    | _, _, _ => none
  | _ => none

/-- A numeric CSV cell as `read_csv` parses the `PAYEMS` column: an integer
part with an optional fractional part. -/
def parseRatCell (s : String) : Option ℚ :=
  match splitOnChar '.' s.toList with
  | [w] => (parseNatDigits w).map (fun n => (n : ℚ))
  | [w, f] =>
    match parseNatDigits w, parseNatDigits f with
    | some n, some m => some ((n : ℚ) + (m : ℚ) / ((10 : ℚ) ^ f.length))
    | _, _ => none
  | _ => none

/-- Line 142: `na_values=['.', 'na', 'NaN']`, the sentinel tokens the cache
reader maps to missing values. -/
def naValues : List String := [".", "na", "NaN"]

/-- One value cell of the cached CSV: a missing-data sentinel (or the empty
cell `to_csv` writes for NaN) becomes NaN, anything else is parsed as a
number. -/
def parseValue (cell : String) : Option ℚ :=
  if cell ∈ naValues ∨ cell = "" then none
  else parseRatCell cell

/-- Lines 140-142: `pd.read_csv(..., names=['Date', 'PAYEMS'],
parse_dates=['Date'], skiprows=1, na_values=['.', 'na', 'NaN'])` applied to
the data rows of the cached file: every date cell must parse, value cells
parse through `parseValue`. -/
def readCacheRows : List (String × String) → Option (List TimePoint)
  | [] => some []
  | row :: rest =>
    match parseDate row.1, readCacheRows rest with
    | some d, some s => some ((d, parseValue row.2) :: s)
    | _, _ => none

/-- The cache-mode branch of `get_usempl_data` (lines 136-143): keep the
requested end-date string unchanged (`end_date_str2 = end_date_str`), read
the cached rows, and `dropna()`. -/
def get_usempl_data_cache_mode (file : List (String × String))
    (end_date_str : String) : Option (List TimePoint × String) :=
  (readCacheRows file).map
    (fun s => (s.filter (fun p => p.2.isSome), end_date_str))

theorem readCacheRows_get :
    ∀ (file : List (String × String)) (s : List TimePoint),
      readCacheRows file = some s →
      ∀ (i : Nat) (row : String × String), file[i]? = some row →
        ∃ d, parseDate row.1 = some d ∧ s[i]? = some (d, parseValue row.2) := by
  intro file
  induction file with
  | nil => intro s h i row hi; simp at hi
  | cons r0 rest ih =>
    intro s h i row hi
    simp only [readCacheRows] at h
    split at h
    next d s' hd hs =>
      simp only [Option.some.injEq] at h
      cases i with
      | zero =>
        simp only [List.getElem?_cons_zero, Option.some.injEq] at hi
        subst hi
        refine ⟨d, hd, ?_⟩
        rw [← h]
        simp
      | succ j =>
        simp only [List.getElem?_cons_succ] at hi
        obtain ⟨d', hd', hs'⟩ := ih s' hs j row hi
        refine ⟨d', hd', ?_⟩
        rw [← h]
        simpa using hs'
    next hne => simp at h

/-- Claim C10: in cache mode, every row of the cached file whose value
field is a missing-data sentinel is parsed as missing and silently removed
by `dropna`, the loaded series contains no missing values, and the
returned resolved end-date string is the input `end_date_str` unchanged. -/
theorem cache_mode_drops_sentinels (file : List (String × String))
    (eds : String) (s : List TimePoint)
    (h : readCacheRows file = some s) :
    get_usempl_data_cache_mode file eds =
      some (s.filter (fun p => p.2.isSome), eds) ∧
    (∀ p ∈ s.filter (fun p => p.2.isSome), p.2.isSome = true) ∧
    (∀ (i : Nat) (row : String × String), file[i]? = some row →
      row.2 ∈ naValues →
      ∃ d, parseDate row.1 = some d ∧ s[i]? = some (d, none) ∧
        (d, (none : Option ℚ)) ∉ s.filter (fun p => p.2.isSome)) := by
  refine ⟨?_, ?_, ?_⟩
  · rw [get_usempl_data_cache_mode, h]
    rfl
  · intro p hp
    exact (List.mem_filter.mp hp).2
  · intro i row hi hna
    obtain ⟨d, hd, hs⟩ := readCacheRows_get file s h i row hi
    have hv : parseValue row.2 = none := by
      rw [parseValue, if_pos (Or.inl hna)]
    rw [hv] at hs
    refine ⟨d, hd, hs, ?_⟩
    intro hmem
    have := (List.mem_filter.mp hmem).2
    simp at this

/-- Concrete cached file with one numeric row and two sentinel rows. -/
def cacheFileRaw : List (String × String) :=
  [("1939-01-01", "29923"), ("1940-01-01", "na"), ("1941-01-01", ".")]

/-- The rows `read_csv` parses from `cacheFileRaw`. -/
def cacheParsed : List TimePoint :=
  [(⟨1939, 1, 1⟩, some ((29923 : Nat) : ℚ)), (⟨1940, 1, 1⟩, none),
   (⟨1941, 1, 1⟩, none)]

/-- Claim C10 witness: the theorem instantiated at the concrete cached
file. -/
theorem cache_mode_drops_sentinels_witness :
    readCacheRows cacheFileRaw = some cacheParsed ∧
    (get_usempl_data_cache_mode cacheFileRaw "1939-01-01" =
      some (cacheParsed.filter (fun p => p.2.isSome), "1939-01-01") ∧
    (∀ p ∈ cacheParsed.filter (fun p => p.2.isSome), p.2.isSome = true) ∧
    (∀ (i : Nat) (row : String × String), cacheFileRaw[i]? = some row →
      row.2 ∈ naValues →
      ∃ d, parseDate row.1 = some d ∧ cacheParsed[i]? = some (d, none) ∧
        (d, (none : Option ℚ)) ∉
          cacheParsed.filter (fun p => p.2.isSome))) :=
  ⟨by rfl,
   cache_mode_drops_sentinels cacheFileRaw "1939-01-01" cacheParsed (by rfl)⟩

/-- Lines 296-299 of src/fedfunds_plot.py, the end-date handling of the
entry point `usempl_npp`: `if usempl_end_date == 'today': end_date =
dt.date.today() else: end_date = dt.datetime.strptime(usempl_end_date,
'%Y-%m-%d')`.  `none` models the `ValueError` that `strptime` raises on an
unparseable argument; `today` is the current date. -/
def usempl_npp_end_date (usempl_end_date : String) (today : Date) :
    Option Date :=
  if usempl_end_date = "today" then some today else parseDate usempl_end_date

/-- Claim C8 counterexample: the entry point does not resolve the
sentinels "most_recent" and "earliest" — they fall through to `strptime`,
which fails, instead of resolving to a concrete date. -/
theorem sentinel_end_dates_fail_cex :
    usempl_npp_end_date "most_recent" ⟨2020, 4, 1⟩ = none ∧
    usempl_npp_end_date "earliest" ⟨2020, 4, 1⟩ = none := by
  constructor <;> rfl

/-- Claim C8 (amended): the entry point accepts for its end-date argument
either a literal 'YYYY-mm-dd' date or the single sentinel "today", which
it resolves to the current date; the sentinels "earliest" and
"most_recent" are not recognized and make the `strptime` parse fail. -/
theorem usempl_npp_end_date_amended (today : Date) (s : String) (d : Date)
    (hp : parseDate s = some d) :
    usempl_npp_end_date "today" today = some today ∧
    usempl_npp_end_date "most_recent" today = none ∧
    usempl_npp_end_date "earliest" today = none ∧
    (s ≠ "today" → usempl_npp_end_date s today = some d) := by
  refine ⟨rfl, rfl, rfl, ?_⟩
  intro hne
  rw [usempl_npp_end_date, if_neg hne]
  exact hp

/-- Claim C8 (amended) witness: the amended theorem instantiated at a
concrete literal date. -/
theorem usempl_npp_end_date_amended_witness :
    parseDate "2020-04-01" = some ⟨2020, 4, 1⟩ ∧
    (usempl_npp_end_date "today" ⟨2026, 10, 12⟩ = some ⟨2026, 10, 12⟩ ∧
     usempl_npp_end_date "most_recent" ⟨2026, 10, 12⟩ = none ∧
     usempl_npp_end_date "earliest" ⟨2026, 10, 12⟩ = none ∧
     ("2020-04-01" ≠ "today" →
       usempl_npp_end_date "2020-04-01" ⟨2026, 10, 12⟩ = some ⟨2020, 4, 1⟩)) :=
  ⟨by rfl,
   usempl_npp_end_date_amended ⟨2026, 10, 12⟩ "2020-04-01" ⟨2020, 4, 1⟩
     (by rfl)⟩

/-- A background shading rectangle's horizontal extent on the time axis
(its vertical extent is a fixed large multiple of the value range, not
data-derived, and is not modelled). -/
structure Rectangle where
  left : Date
  right : Date
deriving DecidableEq, Repr

/-- Modelled from the spec: the Overlay Clipper of the rate pipeline is
not present in src/ (only the employment pipeline's file is).  Following
spec section 4.2, each recession interval `(peak, trough)` is classified by
a first-match-wins chain against the visible range `[date_from, date_to]`:
entirely outside emits nothing; starts-before emits `[date_from, trough]`;
fully-inside emits `[peak, trough]`; extends-after emits
`[peak, date_to]`; the remaining (range-spanning) case falls through and
emits nothing. -/
def clip_overlay_one (date_from date_to : Date) (iv : Date × Date) :
    List Rectangle :=
  if Date.lt iv.2 date_from ∨ Date.lt date_to iv.1 then []
  else if Date.lt iv.1 date_from ∧ Date.le date_from iv.2 ∧
      Date.le iv.2 date_to then [⟨date_from, iv.2⟩]
  else if Date.le date_from iv.1 ∧ Date.le iv.2 date_to then [⟨iv.1, iv.2⟩]
  else if Date.le date_from iv.1 ∧ Date.le iv.1 date_to ∧
      Date.lt date_to iv.2 then [⟨iv.1, date_to⟩]
  else []

/-- Modelled from the spec: `clip_overlays` maps the clipper over the
recession intervals, concatenating the emitted rectangles. -/
def clip_overlays (ivs : List (Date × Date)) (date_from date_to : Date) :
    List Rectangle :=
  ivs.flatMap (clip_overlay_one date_from date_to)

/-- Claim C7: for every recession interval lying fully inside the visible
range (`peak >= date_from` and `trough <= date_to`, with `peak <= trough`),
the overlay clipper emits exactly one rectangle spanning `[peak, trough]`.
The witness instantiates the visible range (2007-11-01, 2009-07-01) and
the interval (2007-12-01, 2009-06-01), giving the single rectangle
[2007-12-01, 2009-06-01]. -/
theorem clip_fully_inside (iv : Date × Date) (date_from date_to : Date)
    (hwf : Date.le iv.1 iv.2) (h1 : Date.le date_from iv.1)
    (h2 : Date.le iv.2 date_to) :
    clip_overlay_one date_from date_to iv = [⟨iv.1, iv.2⟩] := by
  have hA : ¬ (Date.lt iv.2 date_from ∨ Date.lt date_to iv.1) := by
    unfold Date.lt Date.le at *
    omega
  have hB : ¬ (Date.lt iv.1 date_from ∧ Date.le date_from iv.2 ∧
      Date.le iv.2 date_to) := by
    unfold Date.lt Date.le at *
    omega
  rw [clip_overlay_one, if_neg hA, if_neg hB, if_pos ⟨h1, h2⟩]

/-- Claim C7 witness: the fully-inside theorem at the concrete visible
range (2007-11-01, 2009-07-01) and interval (2007-12-01, 2009-06-01). -/
theorem clip_fully_inside_witness :
    Date.le ⟨2007, 12, 1⟩ ⟨2009, 6, 1⟩ ∧
    Date.le ⟨2007, 11, 1⟩ ⟨2007, 12, 1⟩ ∧
    Date.le ⟨2009, 6, 1⟩ ⟨2009, 7, 1⟩ ∧
    clip_overlay_one ⟨2007, 11, 1⟩ ⟨2009, 7, 1⟩
      (⟨2007, 12, 1⟩, ⟨2009, 6, 1⟩) = [⟨⟨2007, 12, 1⟩, ⟨2009, 6, 1⟩⟩] :=
  ⟨by decide, by decide, by decide,
   clip_fully_inside (⟨2007, 12, 1⟩, ⟨2009, 6, 1⟩) ⟨2007, 11, 1⟩
     ⟨2009, 7, 1⟩ (by decide) (by decide) (by decide)⟩
